import Mathlib

/-
Verification of the KY-027 magic-light-cup controller (src/src/main.cpp).

The firmware is a single Arduino sketch: two tilt switches (active low) drive
two LED brightness ramps, and a TFT screen shows the two brightness values.
We give a shallow embedding: the mutable globals become a state record, the
loop body becomes a state-transition function parameterised by the inputs
read during that iteration (the millis() reading and the two digitalRead
results), and TFT calls become an emitted list of display commands.
Machine integers are modelled as Int (C int) and Nat with explicit mod 2^32
arithmetic (C unsigned long).
-/

namespace KY027

/-- Arduino LOW level, as returned by digitalRead. -/
def LOW : Int := 0

/-- Arduino HIGH level, as returned by digitalRead. -/
def HIGH : Int := 1

/-- interval for reading switches and updating brightness (ms), main.cpp line 48. -/
def readInterval : Nat := 5

/-- interval for updating the display (ms), main.cpp line 49. -/
def updateInterval : Nat := 100

/-- step size for brightness changes, main.cpp line 56. -/
def brightnessSteps : Int := 2

/-- modulus of the 32-bit unsigned long used for millis arithmetic. -/
def U32 : Nat := 4294967296

/-- C unsigned-long subtraction a - b, as computed mod 2^32 (operands already
reduced mod 2^32 as stored values are). -/
def usub32 (a b : Nat) : Nat := (a % U32 + (U32 - b % U32)) % U32

/-- one TFT_eSPI call, recorded as an event. -/
inductive TftCmd where
  | init : TftCmd
  | setRotation (r : Nat) : TftCmd
  | fillScreen (color : Nat) : TftCmd
  | setTextFont (n : Nat) : TftCmd
  | setTextColor (fg bg : Nat) : TftCmd
  | setCursor (x y : Nat) : TftCmd
  | printLn (s : String) : TftCmd
  | printStr (s : String) : TftCmd
  | printInt (n : Int) : TftCmd
deriving DecidableEq, Repr

/-- colour constants (only used as opaque tags on events). -/
def TFT_BLACK : Nat := 0

/-- colour constant for white text. -/
def TFT_WHITE : Nat := 65535

/-- the mutable globals of main.cpp lines 46-57, plus the last values written
by analogWrite to the two LED pins (the PWM outputs). -/
structure SysState where
  switchStateA : Int
  switchStateB : Int
  brightnessA : Int
  brightnessB : Int
  previousReadMillis : Nat
  previousUpdateMillis : Nat
  ledA : Int
  ledB : Int
deriving DecidableEq, Repr

/-- the environment values one loop iteration observes: the millis() reading
taken once at the top of loop(), and the two digitalRead results. -/
structure Inputs where
  millisReading : Nat
  pinA : Int
  pinB : Int
deriving DecidableEq, Repr

/-- the per-channel brightness update of main.cpp lines 162-189: fade toward
255 while the switch reads LOW, toward 0 otherwise, clamped at both ends,
transcribed if-for-if from the source. -/
def fadeStep (switchState : Int) (b : Int) : Int :=
  if switchState = LOW then
    if b < 255 then
      if b + brightnessSteps > 255 then 255 else b + brightnessSteps
    else b
  else
    if b > 0 then
      if b - brightnessSteps < 0 then 0 else b - brightnessSteps
    else b

/-- drawStaticElements (main.cpp lines 65-85) as its list of TFT calls. -/
def drawStaticElements : List TftCmd :=
  [TftCmd.fillScreen TFT_BLACK,
   TftCmd.setTextFont 2,
   TftCmd.setTextColor TFT_WHITE TFT_BLACK,
   TftCmd.setCursor 0 0,
   TftCmd.printLn "---------------------------",
   TftCmd.printLn " KY027 Magic Light Cups",
   TftCmd.printLn "---------------------------",
   TftCmd.setCursor 0 70,
   TftCmd.printStr "LED A Brightness:",
   TftCmd.setCursor 0 120,
   TftCmd.printStr "LED B Brightness:"]

/-- updateDynamicElements (main.cpp lines 88-100) as its list of TFT calls:
for each field, position the cursor, blank six character cells, reset the
cursor and print the current brightness. -/
def updateDynamicElements (bA bB : Int) : List TftCmd :=
  [TftCmd.setCursor 0 90,
   TftCmd.printStr "      ",
   TftCmd.setCursor 0 90,
   TftCmd.printInt bA,
   TftCmd.setCursor 0 140,
   TftCmd.printStr "      ",
   TftCmd.setCursor 0 140,
   TftCmd.printInt bB]

/-- setup() (main.cpp lines 108-144): TFT initialisation and the static draw,
then the switches are sampled once, brightness is pre-seeded (the globals
start at 0 and are set to 255 when the switch reads LOW), and both values are
written to the PWM outputs.  Timing globals start at 0 (lines 46-47). -/
def setup (pinA pinB : Int) : SysState × List TftCmd :=
  ({ switchStateA := pinA
     switchStateB := pinB
     brightnessA := if pinA = LOW then 255 else 0
     brightnessB := if pinB = LOW then 255 else 0
     previousReadMillis := 0
     previousUpdateMillis := 0
     ledA := if pinA = LOW then 255 else 0
     ledB := if pinB = LOW then 255 else 0 },
   [TftCmd.init, TftCmd.setRotation 0, TftCmd.fillScreen TFT_BLACK,
    TftCmd.setTextFont 2, TftCmd.setTextColor TFT_WHITE TFT_BLACK]
   ++ drawStaticElements)

/-- the first stage of loop() (main.cpp lines 152-194): when at least
readInterval ms have elapsed since the last read, record the read time, sample
both switches, fade both brightness values once, and write them to the LEDs. -/
def sampleStage (inp : Inputs) (s : SysState) : SysState :=
  if usub32 inp.millisReading s.previousReadMillis ≥ readInterval then
    { s with
      previousReadMillis := inp.millisReading
      switchStateA := inp.pinA
      switchStateB := inp.pinB
      brightnessA := fadeStep inp.pinA s.brightnessA
      brightnessB := fadeStep inp.pinB s.brightnessB
      ledA := fadeStep inp.pinA s.brightnessA
      ledB := fadeStep inp.pinB s.brightnessB }
  else s

/-- the second stage of loop() (main.cpp lines 197-202): when at least
updateInterval ms have elapsed since the last display update, record the
update time and redraw the two dynamic fields. -/
def renderStage (c : Nat) (s : SysState) : SysState × List TftCmd :=
  if usub32 c s.previousUpdateMillis ≥ updateInterval then
    ({ s with previousUpdateMillis := c },
     updateDynamicElements s.brightnessA s.brightnessB)
  else (s, [])

/-- one whole iteration of loop() (main.cpp lines 148-203): millis is read
once, then the sample-and-actuate stage runs (when due), then the render
stage runs (when due) on the resulting state. -/
def loopStep (inp : Inputs) (s : SysState) : SysState × List TftCmd :=
  renderStage inp.millisReading (sampleStage inp s)

/-- iterate loop() over a list of per-iteration inputs. -/
def runLoop : List Inputs → SysState → SysState
  | [], s => s
  | inp :: rest, s => runLoop rest (loopStep inp s).1

/-- the display commands emitted while iterating loop() over the inputs. -/
def runTrace : List Inputs → SysState → List TftCmd
  | [], _ => []
  | inp :: rest, s => (loopStep inp s).2 ++ runTrace rest (loopStep inp s).1

/-- the millis readings at which the sample-and-actuate stage fires while
iterating loop() over the inputs. -/
def sampleFireClocks : List Inputs → SysState → List Nat
  | [], _ => []
  | inp :: rest, s =>
    if usub32 inp.millisReading s.previousReadMillis ≥ readInterval then
      inp.millisReading :: sampleFireClocks rest (loopStep inp s).1
    else sampleFireClocks rest (loopStep inp s).1

/-- the millis readings at which the render stage fires while iterating
loop() over the inputs (the gate is the one loop() actually evaluates, on the
state left by the sample stage of the same iteration). -/
def renderFireClocks : List Inputs → SysState → List Nat
  | [], _ => []
  | inp :: rest, s =>
    if usub32 inp.millisReading (sampleStage inp s).previousUpdateMillis ≥ updateInterval then
      inp.millisReading :: renderFireClocks rest (loopStep inp s).1
    else renderFireClocks rest (loopStep inp s).1

/-- the brightness trajectory of one channel held tilted (LOW), per sample
tick, from 0. -/
def upIter : Nat → Int
  | 0 => 0
  | n + 1 => fadeStep LOW (upIter n)

/-- the brightness trajectory of one channel held released (HIGH), per sample
tick, from 255. -/
def downIter : Nat → Int
  | 0 => 255
  | n + 1 => fadeStep HIGH (downIter n)

lemma fadeStep_bounds (sw b : Int) (h0 : 0 ≤ b) (h1 : b ≤ 255) :
    0 ≤ fadeStep sw b ∧ fadeStep sw b ≤ 255 := by
  unfold fadeStep brightnessSteps
  split_ifs <;> omega

lemma renderStage_fst_preserves (c : Nat) (s : SysState) :
    (renderStage c s).1.switchStateA = s.switchStateA ∧
    (renderStage c s).1.switchStateB = s.switchStateB ∧
    (renderStage c s).1.brightnessA = s.brightnessA ∧
    (renderStage c s).1.brightnessB = s.brightnessB ∧
    (renderStage c s).1.previousReadMillis = s.previousReadMillis ∧
    (renderStage c s).1.ledA = s.ledA ∧
    (renderStage c s).1.ledB = s.ledB := by
  unfold renderStage
  split_ifs <;> exact ⟨rfl, rfl, rfl, rfl, rfl, rfl, rfl⟩

lemma renderStage_prevUpdate (c : Nat) (s : SysState) :
    (renderStage c s).1.previousUpdateMillis =
      if usub32 c s.previousUpdateMillis ≥ updateInterval then c
      else s.previousUpdateMillis := by
  unfold renderStage
  split_ifs <;> rfl

lemma sampleStage_prevUpdate (inp : Inputs) (s : SysState) :
    (sampleStage inp s).previousUpdateMillis = s.previousUpdateMillis := by
  unfold sampleStage
  split_ifs <;> rfl

lemma sampleStage_prevRead (inp : Inputs) (s : SysState) :
    (sampleStage inp s).previousReadMillis =
      if usub32 inp.millisReading s.previousReadMillis ≥ readInterval
      then inp.millisReading else s.previousReadMillis := by
  unfold sampleStage
  split_ifs <;> rfl

lemma sampleStage_brightness (inp : Inputs) (s : SysState) :
    (sampleStage inp s).brightnessA =
      (if usub32 inp.millisReading s.previousReadMillis ≥ readInterval
       then fadeStep inp.pinA s.brightnessA else s.brightnessA) ∧
    (sampleStage inp s).brightnessB =
      (if usub32 inp.millisReading s.previousReadMillis ≥ readInterval
       then fadeStep inp.pinB s.brightnessB else s.brightnessB) := by
  unfold sampleStage
  split_ifs <;> exact ⟨rfl, rfl⟩

lemma loopStep_prevRead (inp : Inputs) (s : SysState) :
    ((loopStep inp s).1).previousReadMillis =
      if usub32 inp.millisReading s.previousReadMillis ≥ readInterval
      then inp.millisReading else s.previousReadMillis := by
  rw [loopStep, (renderStage_fst_preserves _ _).2.2.2.2.1, sampleStage_prevRead]

lemma loopStep_prevUpdate (inp : Inputs) (s : SysState) :
    ((loopStep inp s).1).previousUpdateMillis =
      if usub32 inp.millisReading s.previousUpdateMillis ≥ updateInterval
      then inp.millisReading else s.previousUpdateMillis := by
  rw [loopStep, renderStage_prevUpdate, sampleStage_prevUpdate]

lemma loopStep_brightness (inp : Inputs) (s : SysState) :
    ((loopStep inp s).1).brightnessA = (sampleStage inp s).brightnessA ∧
    ((loopStep inp s).1).brightnessB = (sampleStage inp s).brightnessB := by
  rw [loopStep, (renderStage_fst_preserves _ _).2.2.1,
    (renderStage_fst_preserves _ _).2.2.2.1]
  exact ⟨rfl, rfl⟩

lemma runLoop_bounds (inputs : List Inputs) : ∀ s : SysState,
    0 ≤ s.brightnessA → s.brightnessA ≤ 255 →
    0 ≤ s.brightnessB → s.brightnessB ≤ 255 →
    0 ≤ (runLoop inputs s).brightnessA ∧ (runLoop inputs s).brightnessA ≤ 255 ∧
    0 ≤ (runLoop inputs s).brightnessB ∧ (runLoop inputs s).brightnessB ≤ 255 := by
  induction inputs with
  | nil => intro s h0 h1 h2 h3; exact ⟨h0, h1, h2, h3⟩
  | cons inp rest ih =>
    intro s h0 h1 h2 h3
    have hA := (loopStep_brightness inp s).1
    have hB := (loopStep_brightness inp s).2
    rw [(sampleStage_brightness inp s).1] at hA
    rw [(sampleStage_brightness inp s).2] at hB
    have hfA := fadeStep_bounds inp.pinA s.brightnessA h0 h1
    have hfB := fadeStep_bounds inp.pinB s.brightnessB h2 h3
    refine ih ((loopStep inp s).1) ?_ ?_ ?_ ?_ <;>
      first
        | (rw [hA]; split_ifs <;> omega)
        | (rw [hB]; split_ifs <;> omega)

/-- Claim C1: from the seeded startup state, brightnessA and brightnessB stay
within [0, 255] after every run of the loop, whatever inputs each iteration
observes. -/
theorem C1_brightness_invariant (pA pB : Int) (inputs : List Inputs) :
    0 ≤ (runLoop inputs (setup pA pB).1).brightnessA ∧
    (runLoop inputs (setup pA pB).1).brightnessA ≤ 255 ∧
    0 ≤ (runLoop inputs (setup pA pB).1).brightnessB ∧
    (runLoop inputs (setup pA pB).1).brightnessB ≤ 255 := by
  refine runLoop_bounds inputs (setup pA pB).1 ?_ ?_ ?_ ?_ <;>
    unfold setup <;> dsimp only <;> split_ifs <;> omega

/-- Claim C2: on a sample tick the brightness update is the reference
function min 255 (b + step) while the switch reads LOW and max 0 (b - step)
otherwise, and the sample stage applies this transition exactly once per tick
(the new brightness is one fadeStep of the old one when the tick fires, and
nothing changes when it does not). -/
theorem C2_fade_update :
    (∀ sw b : Int, 0 ≤ b → b ≤ 255 →
      (sw = LOW → fadeStep sw b = min 255 (b + brightnessSteps)) ∧
      (sw ≠ LOW → fadeStep sw b = max 0 (b - brightnessSteps))) ∧
    (∀ (inp : Inputs) (s : SysState),
      (usub32 inp.millisReading s.previousReadMillis ≥ readInterval →
        (sampleStage inp s).brightnessA = fadeStep inp.pinA s.brightnessA ∧
        (sampleStage inp s).brightnessB = fadeStep inp.pinB s.brightnessB) ∧
      (usub32 inp.millisReading s.previousReadMillis < readInterval →
        sampleStage inp s = s)) := by
  refine ⟨fun sw b h0 h1 => ⟨fun hsw => ?_, fun hsw => ?_⟩,
    fun inp s => ⟨fun hdue => ?_, fun hnot => ?_⟩⟩
  · subst hsw
    unfold fadeStep brightnessSteps LOW
    split_ifs <;> omega
  · rw [fadeStep, if_neg hsw]
    unfold brightnessSteps
    split_ifs <;> omega
  · rw [sampleStage, if_pos hdue]
    exact ⟨rfl, rfl⟩
  · rw [sampleStage, if_neg (by omega)]

/-- Claim C2 witness: the reference-function equality at concrete inputs,
including the clamped final step up (254 to 255) and the clamped final step
down (1 to 0). -/
theorem C2_fade_update_witness :
    fadeStep LOW 254 = min 255 (254 + brightnessSteps) ∧
    fadeStep HIGH 1 = max 0 (1 - brightnessSteps) :=
  ⟨(C2_fade_update.1 LOW 254 (by decide) (by decide)).1 rfl,
   (C2_fade_update.1 HIGH 1 (by decide) (by decide)).2 (by decide)⟩

/-- Claim C9: one fadeStep moves the brightness by at most the step size in
absolute value, upward when the switch reads LOW and downward otherwise. -/
theorem C9_bounded_monotone_step (sw b : Int) :
    |fadeStep sw b - b| ≤ brightnessSteps ∧
    (sw = LOW → b ≤ fadeStep sw b) ∧
    (sw ≠ LOW → fadeStep sw b ≤ b) := by
  refine ⟨?_, fun hsw => ?_, fun hsw => ?_⟩
  · rw [abs_le]
    unfold fadeStep brightnessSteps LOW
    split_ifs <;> omega
  · subst hsw
    unfold fadeStep brightnessSteps LOW
    split_ifs <;> omega
  · rw [fadeStep, if_neg hsw]
    unfold brightnessSteps
    split_ifs <;> omega

/-- Claim C9 witness: the step bound and both monotonicity directions at
concrete inputs. -/
theorem C9_bounded_monotone_step_witness :
    |fadeStep LOW 10 - 10| ≤ brightnessSteps ∧
    10 ≤ fadeStep LOW 10 ∧ fadeStep HIGH 10 ≤ 10 :=
  ⟨(C9_bounded_monotone_step LOW 10).1,
   (C9_bounded_monotone_step LOW 10).2.1 rfl,
   (C9_bounded_monotone_step HIGH 10).2.2 (by decide)⟩

lemma upIter_closed (n : Nat) : upIter n = min 255 (2 * (n : Int)) := by
  induction n with
  | zero => simp [upIter]
  | succ k ih =>
    have hstep : upIter (k + 1) = fadeStep LOW (upIter k) := rfl
    rw [hstep, ih]
    unfold fadeStep brightnessSteps LOW
    split_ifs <;> push_cast <;> omega

lemma downIter_closed (n : Nat) : downIter n = max 0 (255 - 2 * (n : Int)) := by
  induction n with
  | zero => simp [downIter]
  | succ k ih =>
    have hstep : downIter (k + 1) = fadeStep HIGH (downIter k) := rfl
    rw [hstep, ih]
    unfold fadeStep brightnessSteps LOW HIGH
    split_ifs <;> push_cast <;> omega

/-- Claim C3: held tilted from 0 the trajectory is min 255 (2n), i.e. the
sequence 2, 4, ..., 254, 255; the value 255 is reached exactly from the 128th
tick on; the upper clamp fires on exactly one tick (the one leaving 254,
whose step is shortened to 1); and the value stays 255 afterwards. -/
theorem C3_tilt_ramp_up (n : Nat) :
    upIter n = min 255 (2 * (n : Int)) ∧
    (upIter n = 255 ↔ 128 ≤ n) ∧
    ((upIter n < 255 ∧ 255 < upIter n + brightnessSteps) ↔ n = 127) ∧
    (128 ≤ n → upIter n = 255) := by
  have h := upIter_closed n
  have h7 := upIter_closed 127
  refine ⟨h, ?_, ?_, ?_⟩ <;> rw [h] <;> (try simp only [brightnessSteps]) <;> omega

/-- Claim C3 witness: 255 is reached at tick 128, the pre-clamp state 254 is
hit exactly at tick 127, and the value remains 255 later (tick 200). -/
theorem C3_tilt_ramp_up_witness :
    upIter 128 = 255 ∧
    (upIter 127 < 255 ∧ 255 < upIter 127 + brightnessSteps) ∧
    upIter 200 = 255 :=
  ⟨(C3_tilt_ramp_up 128).2.1.mpr (by decide),
   (C3_tilt_ramp_up 127).2.2.1.mpr rfl,
   (C3_tilt_ramp_up 200).2.2.2 (by decide)⟩

/-- Claim C4: held released from 255 the trajectory is max 0 (255 - 2n), so
0 is reached exactly from the 128th tick on and the value stays 0 afterwards. -/
theorem C4_release_ramp_down (n : Nat) :
    downIter n = max 0 (255 - 2 * (n : Int)) ∧
    (downIter n = 0 ↔ 128 ≤ n) ∧
    (128 ≤ n → downIter n = 0) := by
  have h := downIter_closed n
  refine ⟨h, ?_, ?_⟩ <;> rw [h] <;> omega

/-- Claim C4 witness: 0 is reached at tick 128 and still holds at tick 300. -/
theorem C4_release_ramp_down_witness :
    downIter 128 = 0 ∧ downIter 300 = 0 :=
  ⟨(C4_release_ramp_down 128).2.2 (by decide),
   (C4_release_ramp_down 300).2.2 (by decide)⟩

/-- Claim C5: setup seeds each brightness to the extreme matching the initial
switch sample (255 when the pin reads LOW, else 0), stores the sampled switch
states, and writes both seeded values to the PWM outputs already in the setup
state, before any loop iteration runs. -/
theorem C5_startup_seeding (pA pB : Int) :
    ((setup pA pB).1.brightnessA = if pA = LOW then 255 else 0) ∧
    ((setup pA pB).1.brightnessB = if pB = LOW then 255 else 0) ∧
    (setup pA pB).1.ledA = (setup pA pB).1.brightnessA ∧
    (setup pA pB).1.ledB = (setup pA pB).1.brightnessB ∧
    (setup pA pB).1.switchStateA = pA ∧
    (setup pA pB).1.switchStateB = pB ∧
    runLoop [] (setup pA pB).1 = (setup pA pB).1 :=
  ⟨rfl, rfl, rfl, rfl, rfl, rfl, rfl⟩

/-- Claim C10: the render stage changes neither brightness, nor the sampled
switch states, nor the LED outputs, nor the sample timer; only the render
timer moves (to the current millis reading when the stage fires, otherwise it
too is unchanged). -/
theorem C10_render_frame (c : Nat) (s : SysState) :
    (renderStage c s).1.brightnessA = s.brightnessA ∧
    (renderStage c s).1.brightnessB = s.brightnessB ∧
    (renderStage c s).1.switchStateA = s.switchStateA ∧
    (renderStage c s).1.switchStateB = s.switchStateB ∧
    (renderStage c s).1.previousReadMillis = s.previousReadMillis ∧
    (renderStage c s).1.ledA = s.ledA ∧
    (renderStage c s).1.ledB = s.ledB ∧
    ((renderStage c s).1.previousUpdateMillis = c ∨
      (renderStage c s).1.previousUpdateMillis = s.previousUpdateMillis) := by
  unfold renderStage
  split_ifs
  · exact ⟨rfl, rfl, rfl, rfl, rfl, rfl, rfl, Or.inl rfl⟩
  · exact ⟨rfl, rfl, rfl, rfl, rfl, rfl, rfl, Or.inr rfl⟩

/-- Claim C7: each loop iteration runs the sample-and-actuate stage first and
the render stage second, both gated against the one millis reading of that
iteration; the sample stage never touches the render timer and the render
stage never touches the sample timer; and all four firing combinations
(both, sample only, render only, neither) are realisable. -/
theorem C7_stage_ordering :
    (∀ (inp : Inputs) (s : SysState),
      loopStep inp s = renderStage inp.millisReading (sampleStage inp s)) ∧
    (∀ (inp : Inputs) (s : SysState),
      (sampleStage inp s).previousUpdateMillis = s.previousUpdateMillis) ∧
    (∀ (c : Nat) (s : SysState),
      (renderStage c s).1.previousReadMillis = s.previousReadMillis) ∧
    (∃ (inp : Inputs) (s : SysState),
      usub32 inp.millisReading s.previousReadMillis ≥ readInterval ∧
      usub32 inp.millisReading (sampleStage inp s).previousUpdateMillis ≥ updateInterval) ∧
    (∃ (inp : Inputs) (s : SysState),
      usub32 inp.millisReading s.previousReadMillis ≥ readInterval ∧
      ¬ usub32 inp.millisReading (sampleStage inp s).previousUpdateMillis ≥ updateInterval) ∧
    (∃ (inp : Inputs) (s : SysState),
      ¬ usub32 inp.millisReading s.previousReadMillis ≥ readInterval ∧
      usub32 inp.millisReading (sampleStage inp s).previousUpdateMillis ≥ updateInterval) ∧
    (∃ (inp : Inputs) (s : SysState),
      ¬ usub32 inp.millisReading s.previousReadMillis ≥ readInterval ∧
      ¬ usub32 inp.millisReading (sampleStage inp s).previousUpdateMillis ≥ updateInterval) := by
  refine ⟨fun inp s => rfl, sampleStage_prevUpdate,
    fun c s => (renderStage_fst_preserves c s).2.2.2.2.1, ?_, ?_, ?_, ?_⟩
  · exact ⟨⟨100, HIGH, HIGH⟩, ⟨HIGH, HIGH, 0, 0, 0, 0, 0, 0⟩, by decide, by decide⟩
  · exact ⟨⟨5, HIGH, HIGH⟩, ⟨HIGH, HIGH, 0, 0, 0, 0, 0, 0⟩, by decide, by decide⟩
  · exact ⟨⟨100, HIGH, HIGH⟩, ⟨HIGH, HIGH, 0, 0, 98, 0, 0, 0⟩, by decide, by decide⟩
  · exact ⟨⟨0, HIGH, HIGH⟩, ⟨HIGH, HIGH, 0, 0, 0, 0, 0, 0⟩, by decide, by decide⟩

lemma mem_update_not_static (bA bB : Int) (e : TftCmd)
    (he : e ∈ updateDynamicElements bA bB) : e ∉ drawStaticElements := by
  fin_cases he <;> simp [drawStaticElements]

lemma loopStep_trace (inp : Inputs) (s : SysState) :
    (loopStep inp s).2 =
      updateDynamicElements (sampleStage inp s).brightnessA
        (sampleStage inp s).brightnessB ∨
    (loopStep inp s).2 = [] := by
  rw [loopStep]
  unfold renderStage
  split_ifs
  · exact Or.inl rfl
  · exact Or.inr rfl

lemma runTrace_not_static : ∀ (inputs : List Inputs) (s : SysState) (e : TftCmd),
    e ∈ runTrace inputs s → e ∉ drawStaticElements := by
  intro inputs
  induction inputs with
  | nil =>
    intro s e he
    simp [runTrace] at he
  | cons inp rest ih =>
    intro s e he
    have hsplit : runTrace (inp :: rest) s =
        (loopStep inp s).2 ++ runTrace rest (loopStep inp s).1 := rfl
    rw [hsplit] at he
    rcases List.mem_append.mp he with h1 | h2
    · rcases loopStep_trace inp s with h | h <;> rw [h] at h1
      · exact mem_update_not_static _ _ e h1
      · simp at h1
    · exact ih _ e h2

/-- Claim C8: the render stage always blanks each numeric field (six spaces
at the field's cursor position) and then prints the new value at the same
position; the header and labels appear exactly once in the setup trace; and
no display command emitted by any run of the loop is one of the static-draw
commands. -/
theorem C8_render_blanking_and_static_once :
    (∀ bA bB : Int, updateDynamicElements bA bB =
      [TftCmd.setCursor 0 90, TftCmd.printStr "      ", TftCmd.setCursor 0 90,
       TftCmd.printInt bA, TftCmd.setCursor 0 140, TftCmd.printStr "      ",
       TftCmd.setCursor 0 140, TftCmd.printInt bB]) ∧
    (∀ pA pB : Int,
      (setup pA pB).2.count (TftCmd.printLn " KY027 Magic Light Cups") = 1 ∧
      (setup pA pB).2.count (TftCmd.printStr "LED A Brightness:") = 1 ∧
      (setup pA pB).2.count (TftCmd.printStr "LED B Brightness:") = 1) ∧
    (∀ (inputs : List Inputs) (s : SysState) (e : TftCmd),
      e ∈ runTrace inputs s → e ∉ drawStaticElements) :=
  ⟨fun bA bB => rfl,
   fun pA pB => by
    have h : (setup pA pB).2 =
        [TftCmd.init, TftCmd.setRotation 0, TftCmd.fillScreen TFT_BLACK,
         TftCmd.setTextFont 2, TftCmd.setTextColor TFT_WHITE TFT_BLACK]
        ++ drawStaticElements := rfl
    rw [h]
    exact ⟨by decide, by decide, by decide⟩,
   runTrace_not_static⟩

lemma usub32_eq_sub (a b : Nat) (hba : b ≤ a) (ha : a < U32) :
    usub32 a b = a - b := by
  unfold U32 at ha
  unfold usub32 U32
  omega

lemma sampleFireClocks_spec : ∀ (inputs : List Inputs) (s : SysState),
    List.Sorted (· ≤ ·) (inputs.map Inputs.millisReading) →
    (∀ c ∈ inputs.map Inputs.millisReading, c < U32) →
    (∀ c ∈ inputs.map Inputs.millisReading, s.previousReadMillis ≤ c) →
    s.previousReadMillis < U32 →
    (∀ t ∈ sampleFireClocks inputs s,
      s.previousReadMillis + readInterval ≤ t) ∧
    List.Chain' (fun a b => a + readInterval ≤ b) (sampleFireClocks inputs s) := by
  intro inputs
  induction inputs with
  | nil =>
    intro s _ _ _ _
    refine ⟨fun t ht => absurd ht ?_, by simp [sampleFireClocks]⟩
    simp [sampleFireClocks]
  | cons inp rest ih =>
    intro s hsort hbound hprev hps
    rw [List.map_cons, List.sorted_cons] at hsort
    obtain ⟨hhead, hsort'⟩ := hsort
    rw [List.map_cons] at hbound hprev
    have hc : inp.millisReading < U32 := hbound _ (List.mem_cons_self _ _)
    have hbound' : ∀ c ∈ rest.map Inputs.millisReading, c < U32 :=
      fun c hcm => hbound c (List.mem_cons_of_mem _ hcm)
    have hpc : s.previousReadMillis ≤ inp.millisReading :=
      hprev _ (List.mem_cons_self _ _)
    by_cases hdue : usub32 inp.millisReading s.previousReadMillis ≥ readInterval
    · have hfire : sampleFireClocks (inp :: rest) s =
          inp.millisReading :: sampleFireClocks rest (loopStep inp s).1 := by
        have hq : sampleFireClocks (inp :: rest) s =
            if usub32 inp.millisReading s.previousReadMillis ≥ readInterval
            then inp.millisReading :: sampleFireClocks rest (loopStep inp s).1
            else sampleFireClocks rest (loopStep inp s).1 := rfl
        rw [hq, if_pos hdue]
      have hprevNew : ((loopStep inp s).1).previousReadMillis = inp.millisReading := by
        rw [loopStep_prevRead, if_pos hdue]
      have hge : s.previousReadMillis + readInterval ≤ inp.millisReading := by
        rw [usub32_eq_sub _ _ hpc hc] at hdue
        omega
      have ihs := ih ((loopStep inp s).1) hsort' hbound'
        (by rw [hprevNew]; exact hhead) (by rw [hprevNew]; exact hc)
      constructor
      · intro t ht
        rw [hfire] at ht
        rcases List.mem_cons.mp ht with rfl | ht'
        · exact hge
        · have hlt := ihs.1 t ht'
          rw [hprevNew] at hlt
          omega
      · rw [hfire, List.chain'_cons']
        refine ⟨fun y hy => ?_, ihs.2⟩
        have hmem := List.mem_of_mem_head? hy
        have hlt := ihs.1 y hmem
        rw [hprevNew] at hlt
        exact hlt
    · have hskip : sampleFireClocks (inp :: rest) s =
          sampleFireClocks rest (loopStep inp s).1 := by
        have hq : sampleFireClocks (inp :: rest) s =
            if usub32 inp.millisReading s.previousReadMillis ≥ readInterval
            then inp.millisReading :: sampleFireClocks rest (loopStep inp s).1
            else sampleFireClocks rest (loopStep inp s).1 := rfl
        rw [hq, if_neg hdue]
      have hprevNew : ((loopStep inp s).1).previousReadMillis =
          s.previousReadMillis := by
        rw [loopStep_prevRead, if_neg hdue]
      have ihs := ih ((loopStep inp s).1) hsort' hbound'
        (by rw [hprevNew]; exact fun c hcm => hprev c (List.mem_cons_of_mem _ hcm))
        (by rw [hprevNew]; exact hps)
      constructor
      · intro t ht
        rw [hskip] at ht
        have hlt := ihs.1 t ht
        rw [hprevNew] at hlt
        exact hlt
      · rw [hskip]
        exact ihs.2

lemma renderFireClocks_spec : ∀ (inputs : List Inputs) (s : SysState),
    List.Sorted (· ≤ ·) (inputs.map Inputs.millisReading) →
    (∀ c ∈ inputs.map Inputs.millisReading, c < U32) →
    (∀ c ∈ inputs.map Inputs.millisReading, s.previousUpdateMillis ≤ c) →
    s.previousUpdateMillis < U32 →
    (∀ t ∈ renderFireClocks inputs s,
      s.previousUpdateMillis + updateInterval ≤ t) ∧
    List.Chain' (fun a b => a + updateInterval ≤ b) (renderFireClocks inputs s) := by
  intro inputs
  induction inputs with
  | nil =>
    intro s _ _ _ _
    refine ⟨fun t ht => absurd ht ?_, by simp [renderFireClocks]⟩
    simp [renderFireClocks]
  | cons inp rest ih =>
    intro s hsort hbound hprev hps
    rw [List.map_cons, List.sorted_cons] at hsort
    obtain ⟨hhead, hsort'⟩ := hsort
    rw [List.map_cons] at hbound hprev
    have hc : inp.millisReading < U32 := hbound _ (List.mem_cons_self _ _)
    have hbound' : ∀ c ∈ rest.map Inputs.millisReading, c < U32 :=
      fun c hcm => hbound c (List.mem_cons_of_mem _ hcm)
    have hpc : s.previousUpdateMillis ≤ inp.millisReading :=
      hprev _ (List.mem_cons_self _ _)
    have hq : renderFireClocks (inp :: rest) s =
        if usub32 inp.millisReading (sampleStage inp s).previousUpdateMillis
            ≥ updateInterval
        then inp.millisReading :: renderFireClocks rest (loopStep inp s).1
        else renderFireClocks rest (loopStep inp s).1 := rfl
    rw [sampleStage_prevUpdate] at hq
    by_cases hdue : usub32 inp.millisReading s.previousUpdateMillis ≥ updateInterval
    · have hfire : renderFireClocks (inp :: rest) s =
          inp.millisReading :: renderFireClocks rest (loopStep inp s).1 := by
        rw [hq, if_pos hdue]
      have hprevNew : ((loopStep inp s).1).previousUpdateMillis =
          inp.millisReading := by
        rw [loopStep_prevUpdate, if_pos hdue]
      have hge : s.previousUpdateMillis + updateInterval ≤ inp.millisReading := by
        rw [usub32_eq_sub _ _ hpc hc] at hdue
        omega
      have ihs := ih ((loopStep inp s).1) hsort' hbound'
        (by rw [hprevNew]; exact hhead) (by rw [hprevNew]; exact hc)
      constructor
      · intro t ht
        rw [hfire] at ht
        rcases List.mem_cons.mp ht with rfl | ht'
        · exact hge
        · have hlt := ihs.1 t ht'
          rw [hprevNew] at hlt
          omega
      · rw [hfire, List.chain'_cons']
        refine ⟨fun y hy => ?_, ihs.2⟩
        have hmem := List.mem_of_mem_head? hy
        have hlt := ihs.1 y hmem
        rw [hprevNew] at hlt
        exact hlt
    · have hskip : renderFireClocks (inp :: rest) s =
          renderFireClocks rest (loopStep inp s).1 := by
        rw [hq, if_neg hdue]
      have hprevNew : ((loopStep inp s).1).previousUpdateMillis =
          s.previousUpdateMillis := by
        rw [loopStep_prevUpdate, if_neg hdue]
      have ihs := ih ((loopStep inp s).1) hsort' hbound'
        (by rw [hprevNew]; exact fun c hcm => hprev c (List.mem_cons_of_mem _ hcm))
        (by rw [hprevNew]; exact hps)
      constructor
      · intro t ht
        rw [hskip] at ht
        have hlt := ihs.1 t ht
        rw [hprevNew] at hlt
        exact hlt
      · rw [hskip]
        exact ihs.2

/-- Claim C6: over any nondecreasing in-range sequence of millis readings
(arbitrarily fast polling included), consecutive firings of the
sample-and-actuate stage are at least readInterval (5) ms apart and
consecutive firings of the render stage are at least updateInterval (100) ms
apart, starting from the setup state. -/
theorem C6_rate_limiting (pA pB : Int) (inputs : List Inputs)
    (hsort : List.Sorted (· ≤ ·) (inputs.map Inputs.millisReading))
    (hbound : ∀ c ∈ inputs.map Inputs.millisReading, c < U32) :
    List.Chain' (fun a b => a + readInterval ≤ b)
      (sampleFireClocks inputs (setup pA pB).1) ∧
    List.Chain' (fun a b => a + updateInterval ≤ b)
      (renderFireClocks inputs (setup pA pB).1) := by
  constructor
  · exact (sampleFireClocks_spec inputs (setup pA pB).1 hsort hbound
      (fun c _ => Nat.zero_le c) (show (0 : Nat) < U32 by decide)).2
  · exact (renderFireClocks_spec inputs (setup pA pB).1 hsort hbound
      (fun c _ => Nat.zero_le c) (show (0 : Nat) < U32 by decide)).2

/-- Claim C6 witness: a concrete fast-polling clock trace (several readings
inside the same 5 ms window) through the rate-limiting theorem. -/
theorem C6_rate_limiting_witness :
    List.Chain' (fun a b => a + readInterval ≤ b)
      (sampleFireClocks
        [⟨0, HIGH, HIGH⟩, ⟨1, HIGH, HIGH⟩, ⟨3, LOW, HIGH⟩, ⟨5, LOW, HIGH⟩,
         ⟨6, LOW, LOW⟩, ⟨10, LOW, LOW⟩, ⟨104, HIGH, LOW⟩, ⟨105, HIGH, HIGH⟩]
        (setup HIGH HIGH).1) ∧
    List.Chain' (fun a b => a + updateInterval ≤ b)
      (renderFireClocks
        [⟨0, HIGH, HIGH⟩, ⟨1, HIGH, HIGH⟩, ⟨3, LOW, HIGH⟩, ⟨5, LOW, HIGH⟩,
         ⟨6, LOW, LOW⟩, ⟨10, LOW, LOW⟩, ⟨104, HIGH, LOW⟩, ⟨105, HIGH, HIGH⟩]
        (setup HIGH HIGH).1) :=
  C6_rate_limiting HIGH HIGH _ (by decide) (by decide)

end KY027
